import Mathlib

/-!
Verification of the cost aggregation engine of `src/cost/spend.go`.

Modelling conventions:
* Go `float64`/`float32` are modelled as exact rationals (`ℚ`); the
  `float32(...)` narrowing conversions in the source are the identity here.
* Go `int` is modelled as unbounded `ℤ`.
* Time is modelled as an integer number of minutes (the fixed parse layout
  has minute resolution); durations are integers in the same unit, so
  `4 * time.Hour` is the integer `240`.
* Go errors are modelled by the inductive `GoError`; `errors.Wrap(err, msg)`
  is `GoError.wrap msg err`, and a fresh error is `GoError.base msg`.
* Fallible Go functions returning `(T, error)` are modelled as
  `Except GoError T`.
* External collaborators (the amazon billing client, `time.ParseDuration`)
  are passed in as explicit function arguments.
-/

namespace Cost

/-- Go error values: either a base error or an error wrapped with a
context message (`errors.Wrap`). -/
inductive GoError where
  | base (msg : String) : GoError
  | wrap (msg : String) (err : GoError) : GoError
deriving DecidableEq, Repr

/-- `true` exactly when the error carries at least one layer of added
context (i.e. it is the result of an `errors.Wrap` with a message). -/
def GoError.hasContext : GoError → Bool
  | .base _ => false
  | .wrap _ _ => true

/-- Modelled from the spec (§3 RawUsageRecord, the `amazon.EC2Item` type is
not under `src/`): one raw usage observation. Field reads in
`src/cost/spend.go` (`item.Launched`, `item.Terminated`, `item.Count`,
`item.Uptime`, `item.Price`, `item.FixedPrice`) fix the field names. -/
structure EC2Item where
  Launched : Bool := false
  Terminated : Bool := false
  Count : ℤ := 0
  Uptime : ℤ := 0
  Price : ℚ := 0
  FixedPrice : ℚ := 0
deriving DecidableEq, Repr

/-- Modelled from the spec (§3 ClassificationKey, the `amazon.ItemKey` type
is not under `src/`): the grouping key, name plus item type. -/
structure ItemKey where
  Name : String := ""
  ItemType : String := ""
deriving DecidableEq, Repr

/-- Modelled from the spec (§3 Item, the struct declaration is not under
`src/`): the aggregated unit. Field writes in `src/cost/spend.go` fix the
field names; numeric fields default to the Go zero value. -/
structure Item where
  Name : String := ""
  ItemType : String := ""
  Launched : ℤ := 0
  Terminated : ℤ := 0
  TotalHours : ℤ := 0
  AvgPrice : ℚ := 0
  FixedPrice : ℚ := 0
  AvgUptime : ℚ := 0
deriving DecidableEq, Repr

/-- Modelled from the spec (§3 Service): a named category of cost. -/
structure Service where
  Name : String := ""
  Items : List Item := []
deriving DecidableEq, Repr

/-- Modelled from the spec (§3 Account): an owner with its services. -/
structure Account where
  Name : String := ""
  Services : List Service := []
deriving DecidableEq, Repr

/-- Modelled from the spec (§3 Provider): a provider with an optional cost
(zero value when unset) and its accounts. -/
structure Provider where
  Name : String := ""
  Cost : ℚ := 0
  Accounts : List Account := []
deriving DecidableEq, Repr

/-- Modelled from the spec (§3/§6 Config options): report options. -/
structure Options where
  Duration : String := ""
  Directory : String := ""
deriving DecidableEq, Repr

/-- Modelled from the spec (§3 Config): the declared providers plus
options. -/
structure Config where
  Opts : Options := {}
  Providers : List Provider := []
deriving DecidableEq, Repr

/-- Modelled from the spec (§3 Output/Report): report metadata strings. -/
structure Report where
  Begin : String := ""
  End : String := ""
  Generated : String := ""
deriving DecidableEq, Repr

/-- Modelled from the spec (§3 Output/Report): the serialization root. -/
structure Output where
  Providers : List Provider := []
  Report : Report := {}
deriving DecidableEq, Repr

/-- `timeRange` from `src/cost/spend.go`: half-open window `[start, end)`.
`end` is a Lean keyword, hence the guillemets. -/
structure timeRange where
  start : ℤ := 0
  «end» : ℤ := 0
deriving DecidableEq, Repr

/-! ## Rounding and statistics helpers (`roundUp`, `avg`) -/

/-- `roundUp` from `src/cost/spend.go` lines 103–110: multiply by
`10^places`, take the ceiling, divide back. Floats are modelled as exact
rationals, so `math.Pow(10, places)` is `(10 : ℚ) ^ places` and
`math.Ceil` is `Int.ceil`. -/
def roundUp (input : ℚ) (places : ℤ) : ℚ :=
  let pow : ℚ := (10 : ℚ) ^ places
  let digit := pow * input
  let round : ℚ := ((Int.ceil digit : ℤ) : ℚ)
  let newVal := round / pow
  newVal

/-- `avg` from `src/cost/spend.go` lines 113–120: sum divided by length,
then `roundUp` to 2 places. On the empty list the divisor is `0`; in `ℚ`
division by zero yields `0` (in Go it would be NaN), so callers must keep
this off empty input, which `setAverages` does. -/
def avg (vals : List ℚ) : ℚ :=
  let total := vals.sum
  let a := total / (vals.length : ℚ)
  roundUp a 2

/-! ## Item aggregation (`setSums`, `setAverages`,
`createItemFromEC2Instance`) -/

/-- One iteration of the `setSums` loop body
(`src/cost/spend.go` lines 126–142), updating the accumulating `Item`. -/
def setSumsStep (r : Item) (item : EC2Item) : Item :=
  let r :=
    if item.Launched then
      if item.Count ≠ 0 then { r with Launched := r.Launched + item.Count }
      else { r with Launched := r.Launched + 1 }
    else r
  let r :=
    if item.Terminated then
      if item.Count ≠ 0 then { r with Terminated := r.Terminated + item.Count }
      else { r with Terminated := r.Terminated + 1 }
    else r
  { r with TotalHours := r.TotalHours + item.Uptime }

/-- `Item.setSums` from `src/cost/spend.go` lines 124–143: zero the three
sum fields, then run the loop over the records. -/
def setSums (res : Item) (items : List EC2Item) : Item :=
  items.foldl setSumsStep { res with Launched := 0, Terminated := 0, TotalHours := 0 }

/-- The nonzero `Price` values of a record list, in order
(the `prices` slice built by the `setAverages` loop,
`src/cost/spend.go` lines 149–159). -/
def nonzeroPrices (items : List EC2Item) : List ℚ :=
  (items.filter fun item => item.Price ≠ 0).map fun item => item.Price

/-- The nonzero `FixedPrice` values of a record list, in order. -/
def nonzeroFixedPrices (items : List EC2Item) : List ℚ :=
  (items.filter fun item => item.FixedPrice ≠ 0).map fun item => item.FixedPrice

/-- The nonzero `Uptime` values of a record list converted to `ℚ`, in
order (`float64(item.Uptime)` in the source). -/
def nonzeroUptimes (items : List EC2Item) : List ℚ :=
  (items.filter fun item => item.Uptime ≠ 0).map fun item => (item.Uptime : ℚ)

/-- `Item.setAverages` from `src/cost/spend.go` lines 147–169: collect the
nonzero values of each field, then average each collection only when it is
non-empty; an empty collection leaves the field untouched. The
`float32(...)` narrowing is the identity in the rational model. -/
def setAverages (res : Item) (items : List EC2Item) : Item :=
  let prices := nonzeroPrices items
  let fixedPrices := nonzeroFixedPrices items
  let uptimes := nonzeroUptimes items
  let res := if prices.length ≠ 0 then { res with AvgPrice := avg prices } else res
  let res := if fixedPrices.length ≠ 0 then { res with FixedPrice := avg fixedPrices } else res
  if uptimes.length ≠ 0 then { res with AvgUptime := avg uptimes } else res

/-- `createItemFromEC2Instance` from `src/cost/spend.go` lines 172–181:
build an `Item` carrying the key, then set sums and averages. The numeric
fields start at the Go zero value. -/
def createItemFromEC2Instance (key : ItemKey) (items : List EC2Item) : Item :=
  let item : Item := { Name := key.Name, ItemType := key.ItemType }
  let item := setSums item items
  let item := setAverages item items
  item

/-! ## Granularity (`Config.GetGranularity`) -/

/-- `Config.GetGranularity` from `src/cost/spend.go` lines 31–42.
`time.ParseDuration` is Go library code outside this repository, so it is
passed in as `parseDuration` (returning the parsed duration in minutes or
the parse error). The default `4 * time.Hour` is `240` minutes. -/
def GetGranularity (parseDuration : String → Except GoError ℤ) (c : Config) :
    Except GoError ℤ :=
  let configDur := c.Opts.Duration
  if configDur ≠ "" then
    match parseDuration configDur with
    | .error e =>
        .error (.wrap ("Could not parse duration " ++ configDur) e)
    | .ok granularity => .ok granularity
  else .ok (4 * 60)

/-! ## Provider merge (`Config.UpdateSpendProviders`) -/

/-- The inner loop of `Config.UpdateSpendProviders`
(`src/cost/spend.go` lines 48–60) for one new provider: scan the declared
list; at the first name match overwrite only the `Cost` field and stop
(`break`); if no declared provider matches, append the new provider. -/
def mergeOne : List Provider → Provider → List Provider
  | [], new => [new]
  | old :: rest, new =>
      if new.Name = old.Name then { old with Cost := new.Cost } :: rest
      else old :: mergeOne rest new

/-- `Config.UpdateSpendProviders` from `src/cost/spend.go` lines 47–61:
process each new provider in order against the (already updated) declared
list. -/
def UpdateSpendProviders (c : Config) (newProv : List Provider) : Config :=
  { c with Providers := newProv.foldl mergeOne c.Providers }

/-! ## Time window resolution (`getTimes`) -/

/-- Gregorian leap year test (as in Go `time`). -/
def isLeap (y : ℕ) : Bool :=
  y % 4 = 0 && (y % 100 ≠ 0 || y % 400 = 0)

/-- Days in the given month (1–12) of the given year. -/
def daysInMonth (y m : ℕ) : ℕ :=
  if m = 2 then (if isLeap y then 29 else 28)
  else if m = 4 ∨ m = 6 ∨ m = 9 ∨ m = 11 then 30
  else 31

/-- Days elapsed in year `y` before month `m` (1–12) begins. -/
def daysBeforeMonth (y m : ℕ) : ℕ :=
  (List.range m).foldl (fun acc i => if 1 ≤ i then acc + daysInMonth y i else acc) 0

/-- Minutes from midnight 0001-01-01 to the civil time
`y-mo-d h:n` (proleptic Gregorian calendar, the time scale of the model). -/
def civilToMinutes (y mo d h n : ℕ) : ℤ :=
  let yearsBefore := y - 1
  let days := 365 * yearsBefore + yearsBefore / 4 - yearsBefore / 100 + yearsBefore / 400
      + daysBeforeMonth y mo + (d - 1)
  ((days * 1440 + h * 60 + n : ℕ) : ℤ)

/-- Numeric value of a run of decimal digit characters. -/
def digitsToNat (cs : List Char) : ℕ :=
  cs.foldl (fun acc c => 10 * acc + (c.toNat - 48)) 0

/-- Modelled from the spec (§4.4; Go `time.Parse` is library code outside
this repository): parse the fixed layout `YYYY-MM-DDThh:mm`
(`2006-01-02T15:04`), validating field ranges, and return the instant in
minutes; `none` on any malformed input. -/
def timeParse (s : String) : Option ℤ :=
  match s.toList with
  | [y1, y2, y3, y4, c1, m1, m2, c2, d1, d2, c3, h1, h2, c4, n1, n2] =>
      if ([y1, y2, y3, y4, m1, m2, d1, d2, h1, h2, n1, n2].all Char.isDigit
          && c1 = '-' && c2 = '-' && c3 = 'T' && c4 = ':') then
        let y := digitsToNat [y1, y2, y3, y4]
        let mo := digitsToNat [m1, m2]
        let d := digitsToNat [d1, d2]
        let h := digitsToNat [h1, h2]
        let n := digitsToNat [n1, n2]
        if 1 ≤ mo ∧ mo ≤ 12 ∧ 1 ≤ d ∧ d ≤ daysInMonth y mo ∧ h ≤ 23 ∧ n ≤ 59 then
          some (civilToMinutes y mo d h n)
        else none
      else none
  | _ => none

/-- `getTimes` from `src/cost/spend.go` lines 66–85: a non-empty start
string is parsed with the fixed layout (failure is wrapped with the
format hint) and the window is `[start, start + granularity)`; an empty
start string gives `end = now` and `start = now - granularity`. The
current clock reading is the explicit argument `now`. -/
def getTimes (s : String) (granularity : ℤ) (now : ℤ) :
    Except GoError timeRange :=
  if s ≠ "" then
    match timeParse s with
    | none =>
        .error (.wrap "incorrect start format: should be YYYY-MM-DDTHH:MM"
          (.base "parsing time"))
    | some startTime =>
        .ok { start := startTime, «end» := startTime + granularity }
  else
    .ok { start := now + (-granularity), «end» := now }

/-! ## Account / provider assembly and report creation -/

/-- The shape returned by the external billing collaborator
(`client.GetEC2Instances`): owner → (key → records), as an ordered
association list; the list order stands for the Go map iteration order,
which the engine consumes but does not control. -/
def FetchResult : Type :=
  List (String × List (ItemKey × List EC2Item))

instance : DecidableEq FetchResult := by
  unfold FetchResult
  infer_instance

/-- The account list built by the loops of `getAWSAccounts`
(`src/cost/spend.go` lines 198–212): for each owner one `ec2` service
whose items are the per-key aggregates, in iteration order. -/
def buildAccounts (accounts : FetchResult) : List Account :=
  accounts.map fun ownerInstances =>
    { Name := ownerInstances.1,
      Services := [{ Name := "ec2",
                     Items := ownerInstances.2.map fun keyItems =>
                       createItemFromEC2Instance keyItems.1 keyItems.2 }] }

/-- `getAWSAccounts` from `src/cost/spend.go` lines 185–215. The network
client is the explicit argument `client` (a function of the query range);
its failure is wrapped with context. -/
def getAWSAccounts (client : timeRange → Except GoError FetchResult)
    (reportRange : timeRange) : Except GoError (List Account) :=
  match client reportRange with
  | .error e => .error (.wrap "Problem getting EC2 instances" e)
  | .ok accounts => .ok (buildAccounts accounts)

/-- `getAWSProvider` from `src/cost/spend.go` lines 218–228: the provider
named `aws` whose accounts come from `getAWSAccounts`; the error is
passed through unwrapped. -/
def getAWSProvider (client : timeRange → Except GoError FetchResult)
    (reportRange : timeRange) : Except GoError Provider :=
  match getAWSAccounts client reportRange with
  | .error e => .error e
  | .ok accounts => .ok { Name := "aws", Accounts := accounts }

/-- `getAllProviders` from `src/cost/spend.go` lines 231–241: the computed
aws provider first, then every declared provider of the config, in
order. -/
def getAllProviders (client : timeRange → Except GoError FetchResult)
    (reportRange : timeRange) (config : Config) :
    Except GoError (List Provider) :=
  match getAWSProvider client reportRange with
  | .error e => .error e
  | .ok awsProvider => .ok (awsProvider :: config.Providers)

/-- Abstract rendering of `time.Time.String()` on the minute time scale. -/
def timeToString (t : ℤ) : String :=
  toString t

/-- `CreateReport` from `src/cost/spend.go` lines 244–262: resolve the
window, fetch and assemble the providers, and fill the report metadata.
The clock is frozen to the explicit `now` (used both by `getTimes` and for
the `Generated` stamp). -/
def CreateReport (start : String) (granularity : ℤ) (now : ℤ)
    (client : timeRange → Except GoError FetchResult) (config : Config) :
    Except GoError Output :=
  match getTimes start granularity now with
  | .error e => .error (.wrap "Problem retrieving report start and end" e)
  | .ok reportRange =>
      match getAllProviders client reportRange config with
      | .error e => .error (.wrap "Problem retrieving providers information" e)
      | .ok providers =>
          .ok { Providers := providers,
                Report := { Begin := timeToString reportRange.start,
                            End := timeToString reportRange.«end»,
                            Generated := timeToString now } }

/-! ## Serialization (`Output.Print`) -/

/-- JSON string quoting (report names contain no characters needing
escapes in this model). -/
def jstr (s : String) : String :=
  "\"" ++ s ++ "\""

/-- One JSON object member. -/
def jfield (k v : String) : String :=
  jstr k ++ ":" ++ v

/-- A JSON object from rendered members (braces written via escapes). -/
def jobj (fields : List String) : String :=
  "\x7b" ++ String.intercalate "," fields ++ "\x7d"

/-- A JSON array from rendered elements. -/
def jarr (elems : List String) : String :=
  "[" ++ String.intercalate "," elems ++ "]"

/-- Deterministic rendering of a rational (a JSON number in the real
output; numerator and denominator here). -/
def jnum (q : ℚ) : String :=
  toString q.num ++ "/" ++ toString q.den

/-- Modelled from the spec (§4.6/§6; `encoding/json.MarshalIndent` and the
struct tags live outside `src/`): render an `Item` with its fields in
declared order. Indentation whitespace is elided; only the byte content
order matters to the claims. -/
def renderItem (it : Item) : String :=
  jobj [jfield "name" (jstr it.Name), jfield "type" (jstr it.ItemType),
    jfield "launched" (toString it.Launched),
    jfield "terminated" (toString it.Terminated),
    jfield "totalhours" (toString it.TotalHours),
    jfield "avgprice" (jnum it.AvgPrice),
    jfield "fixedprice" (jnum it.FixedPrice),
    jfield "avguptime" (jnum it.AvgUptime)]

/-- Render a `Service` (name, then items in order). -/
def renderService (s : Service) : String :=
  jobj [jfield "name" (jstr s.Name), jfield "items" (jarr (s.Items.map renderItem))]

/-- Render an `Account` (name, then services in order). -/
def renderAccount (a : Account) : String :=
  jobj [jfield "name" (jstr a.Name),
    jfield "services" (jarr (a.Services.map renderService))]

/-- Render a `Provider` (name, cost, then accounts in order). -/
def renderProvider (p : Provider) : String :=
  jobj [jfield "name" (jstr p.Name), jfield "cost" (jnum p.Cost),
    jfield "accounts" (jarr (p.Accounts.map renderAccount))]

/-- Render the report metadata object. -/
def renderReport (r : Report) : String :=
  jobj [jfield "begin" (jstr r.Begin), jfield "end" (jstr r.End),
    jfield "generated" (jstr r.Generated)]

/-- Modelled from the spec (§6 serialized report): the full serialized
form of an `Output` — key `providers` then key `report`. -/
def serializeOutput (o : Output) : String :=
  jobj [jfield "providers" (jarr (o.Providers.map renderProvider)),
    jfield "report" (renderReport o.Report)]

/-- The serialized bytes a successful report run writes, as a function of
the run inputs (`none` when `CreateReport` fails). -/
def reportBytes (start : String) (granularity : ℤ) (now : ℤ)
    (client : timeRange → Except GoError FetchResult) (config : Config) :
    Option String :=
  match CreateReport start granularity now client config with
  | .error _ => none
  | .ok out => some (serializeOutput out)

/-- `Output.Print` from `src/cost/spend.go` lines 266–289, modelled over
the outcomes of its three effects: JSON marshalling, file creation and
the file write (each `none` on success, `some e` on failure, supplied by
the environment). Returns `none` on overall success or `some e` with the
error the Go function returns. Mirrors the source exactly: the marshal
and create errors are wrapped with context; a write error is returned
raw by the `return err` statement, which makes the final
`errors.Wrap(err, "Problem writing to file")` line reachable only with
`err == nil`, where `errors.Wrap` returns `nil`. -/
def printOutput (config : Config)
    (marshalErr createErr writeErr : Option GoError) : Option GoError :=
  match marshalErr with
  | some e => some (.wrap "Problem marshalling report into JSON" e)
  | none =>
    if config.Opts.Directory = "" then none
    else
      match createErr with
      | some e => some (.wrap "Problem creating file" e)
      | none =>
        match writeErr with
        | some e => some e
        | none => none

/-! ## Helper lemmas -/

/-- Effect of one `setSums` loop iteration on the three sum fields. -/
lemma setSumsStep_fields (r : Item) (i : EC2Item) :
    (setSumsStep r i).Launched
        = r.Launched + (if i.Launched then (if i.Count ≠ 0 then i.Count else 1) else 0)
    ∧ (setSumsStep r i).Terminated
        = r.Terminated + (if i.Terminated then (if i.Count ≠ 0 then i.Count else 1) else 0)
    ∧ (setSumsStep r i).TotalHours = r.TotalHours + i.Uptime := by
  unfold setSumsStep
  by_cases hl : i.Launched <;> by_cases hc : i.Count ≠ 0 <;>
    by_cases ht : i.Terminated <;> simp [hl, hc, ht]

/-- The `setSums` loop never touches the average fields. -/
lemma setSumsStep_avg_fields (r : Item) (i : EC2Item) :
    (setSumsStep r i).AvgPrice = r.AvgPrice
    ∧ (setSumsStep r i).FixedPrice = r.FixedPrice
    ∧ (setSumsStep r i).AvgUptime = r.AvgUptime := by
  unfold setSumsStep
  by_cases hl : i.Launched <;> by_cases hc : i.Count ≠ 0 <;>
    by_cases ht : i.Terminated <;> simp [hl, hc, ht]

/-- Closed form of the `setSums` fold. -/
lemma foldl_setSumsStep (items : List EC2Item) (r : Item) :
    (items.foldl setSumsStep r).Launched
        = r.Launched
          + (items.map fun i =>
              if i.Launched then (if i.Count ≠ 0 then i.Count else 1) else 0).sum
    ∧ (items.foldl setSumsStep r).Terminated
        = r.Terminated
          + (items.map fun i =>
              if i.Terminated then (if i.Count ≠ 0 then i.Count else 1) else 0).sum
    ∧ (items.foldl setSumsStep r).TotalHours
        = r.TotalHours + (items.map fun i => i.Uptime).sum := by
  induction items generalizing r with
  | nil => simp
  | cons i is ih =>
    obtain ⟨h1, h2, h3⟩ := ih (setSumsStep r i)
    obtain ⟨g1, g2, g3⟩ := setSumsStep_fields r i
    refine ⟨?_, ?_, ?_⟩ <;>
      simp only [List.foldl_cons, List.map_cons, List.sum_cons, h1, h2, h3, g1, g2, g3] <;>
      ring

/-- The `setSums` fold never touches the average fields. -/
lemma foldl_setSumsStep_avg (items : List EC2Item) (r : Item) :
    (items.foldl setSumsStep r).AvgPrice = r.AvgPrice
    ∧ (items.foldl setSumsStep r).FixedPrice = r.FixedPrice
    ∧ (items.foldl setSumsStep r).AvgUptime = r.AvgUptime := by
  induction items generalizing r with
  | nil => exact ⟨rfl, rfl, rfl⟩
  | cons i is ih =>
    obtain ⟨h1, h2, h3⟩ := ih (setSumsStep r i)
    obtain ⟨g1, g2, g3⟩ := setSumsStep_avg_fields r i
    exact ⟨by rw [List.foldl_cons, h1, g1], by rw [List.foldl_cons, h2, g2],
      by rw [List.foldl_cons, h3, g3]⟩

/-- `setAverages` field equations, conditional on the filtered value lists
being empty. -/
lemma setAverages_fields (res : Item) (items : List EC2Item) :
    (setAverages res items).AvgPrice
        = (if nonzeroPrices items = [] then res.AvgPrice else avg (nonzeroPrices items))
    ∧ (setAverages res items).FixedPrice
        = (if nonzeroFixedPrices items = [] then res.FixedPrice
           else avg (nonzeroFixedPrices items))
    ∧ (setAverages res items).AvgUptime
        = (if nonzeroUptimes items = [] then res.AvgUptime
           else avg (nonzeroUptimes items)) := by
  unfold setAverages
  by_cases h1 : nonzeroPrices items = [] <;>
    by_cases h2 : nonzeroFixedPrices items = [] <;>
    by_cases h3 : nonzeroUptimes items = [] <;>
    simp [h1, h2, h3, List.length_eq_zero]

/-! ## Claim theorems -/

/-- C1: `setSums` computes `Launched` as the sum over launched records of
`count` (or `1` when the count is zero), `Terminated` symmetrically over
terminated records, and `TotalHours` as the unconditional sum of uptime
over all records; in particular two launched records with counts 0 and 5
aggregate to `Launched = 6`. -/
theorem setSums_spec (res : Item) (items : List EC2Item) :
    (setSums res items).Launched
        = (items.map fun i =>
            if i.Launched then (if i.Count ≠ 0 then i.Count else 1) else 0).sum
    ∧ (setSums res items).Terminated
        = (items.map fun i =>
            if i.Terminated then (if i.Count ≠ 0 then i.Count else 1) else 0).sum
    ∧ (setSums res items).TotalHours = (items.map fun i => i.Uptime).sum
    ∧ (setSums res [{ Launched := true, Count := 0 }, { Launched := true, Count := 5 }]).Launched
        = 6 := by
  obtain ⟨h1, h2, h3⟩ :=
    foldl_setSumsStep items { res with Launched := 0, Terminated := 0, TotalHours := 0 }
  refine ⟨?_, ?_, ?_, ?_⟩
  · rw [setSums, h1]; simp
  · rw [setSums, h2]; simp
  · rw [setSums, h3]; simp
  · obtain ⟨g1, _, _⟩ :=
      foldl_setSumsStep
        [{ Launched := true, Count := 0 }, { Launched := true, Count := 5 }]
        { res with Launched := 0, Terminated := 0, TotalHours := 0 }
    rw [setSums, g1]; simp

/-- C2: aggregation sets each average field to `roundUp` of the arithmetic
mean of the nonzero values of that field when at least one is nonzero
(`avg` divides by the length, which is then nonzero, so `avg` is never
applied to an empty list), and `setAverages` leaves the field untouched
when all values are zero, so the aggregated item keeps the zero value
there. -/
theorem setAverages_spec (res : Item) (key : ItemKey) (items : List EC2Item) :
    ((setAverages res items).AvgPrice
        = (if nonzeroPrices items = [] then res.AvgPrice else avg (nonzeroPrices items)))
    ∧ ((setAverages res items).FixedPrice
        = (if nonzeroFixedPrices items = [] then res.FixedPrice
           else avg (nonzeroFixedPrices items)))
    ∧ ((setAverages res items).AvgUptime
        = (if nonzeroUptimes items = [] then res.AvgUptime
           else avg (nonzeroUptimes items)))
    ∧ (∀ l : List ℚ, l ≠ [] →
        avg l = roundUp (l.sum / (l.length : ℚ)) 2 ∧ ((l.length : ℚ) ≠ 0))
    ∧ (nonzeroPrices items = [] → (createItemFromEC2Instance key items).AvgPrice = 0)
    ∧ (nonzeroFixedPrices items = [] →
        (createItemFromEC2Instance key items).FixedPrice = 0)
    ∧ (nonzeroUptimes items = [] →
        (createItemFromEC2Instance key items).AvgUptime = 0) := by
  obtain ⟨a1, a2, a3⟩ := setAverages_fields res items
  obtain ⟨b1, b2, b3⟩ :=
    setAverages_fields (setSums { Name := key.Name, ItemType := key.ItemType } items) items
  obtain ⟨c1, c2, c3⟩ :=
    foldl_setSumsStep_avg items
      { (({ Name := key.Name, ItemType := key.ItemType } : Item)) with
          Launched := 0, Terminated := 0, TotalHours := 0 }
  refine ⟨a1, a2, a3, ?_, ?_, ?_, ?_⟩
  · intro l hl
    exact ⟨rfl, by simpa using fun h => hl (List.length_eq_zero.mp h)⟩
  · intro h
    rw [createItemFromEC2Instance, b1, if_pos h, setSums, c1]
  · intro h
    rw [createItemFromEC2Instance, b2, if_pos h, setSums, c2]
  · intro h
    rw [createItemFromEC2Instance, b3, if_pos h, setSums, c3]

/-- C2 witness: concrete instantiations discharging each implication of
`setAverages_spec`. -/
theorem setAverages_spec_witness :
    avg [1] = roundUp ((List.sum [1]) / ((List.length [(1 : ℚ)] : ℕ) : ℚ)) 2
    ∧ (createItemFromEC2Instance { Name := "m", ItemType := "t" } []).AvgPrice = 0 := by
  obtain ⟨_, _, _, h4, h5, _, _⟩ :=
    setAverages_spec {} { Name := "m", ItemType := "t" } []
  exact ⟨(h4 [1] (by simp)).1, h5 rfl⟩

/-- C3: `roundUp v p` (for `0 ≤ p`) is the least multiple of `10 ^ (-p)`
that is at least `v`; in particular `roundUp 2.341 2 = 2.35` and
`roundUp 2 2 = 2`. -/
theorem roundUp_spec (v : ℚ) (p : ℤ) (_hp : 0 ≤ p) :
    (∃ k : ℤ, roundUp v p = (k : ℚ) * (10 : ℚ) ^ (-p))
    ∧ v ≤ roundUp v p
    ∧ (∀ w : ℚ, (∃ k : ℤ, w = (k : ℚ) * (10 : ℚ) ^ (-p)) → v ≤ w → roundUp v p ≤ w)
    ∧ roundUp (2341 / 1000) 2 = 235 / 100
    ∧ roundUp 2 2 = 2 := by
  have hP : (0 : ℚ) < (10 : ℚ) ^ p := zpow_pos (by norm_num) p
  have hrw : roundUp v p = ((Int.ceil ((10 : ℚ) ^ p * v) : ℤ) : ℚ) / (10 : ℚ) ^ p := rfl
  have hmul : ∀ k : ℤ, (k : ℚ) * (10 : ℚ) ^ (-p) = (k : ℚ) / (10 : ℚ) ^ p := by
    intro k
    rw [zpow_neg, div_eq_mul_inv]
  refine ⟨⟨Int.ceil ((10 : ℚ) ^ p * v), by rw [hrw, hmul]⟩, ?_, ?_, ?_, ?_⟩
  · rw [hrw, le_div_iff₀ hP, mul_comm]
    exact Int.le_ceil _
  · rintro w ⟨k, rfl⟩ hvw
    rw [hmul] at hvw ⊢
    rw [hrw]
    have hk : ((Int.ceil ((10 : ℚ) ^ p * v) : ℤ) : ℚ) ≤ (k : ℚ) := by
      exact_mod_cast Int.ceil_le.mpr (by rw [mul_comm]; exact (le_div_iff₀ hP).mp hvw)
    exact (div_le_div_iff₀ hP hP).mpr (mul_le_mul_of_nonneg_right hk hP.le)
  · have hc : Int.ceil ((10 : ℚ) ^ (2 : ℤ) * (2341 / 1000)) = 235 := by
      rw [Int.ceil_eq_iff]
      norm_num
    rw [roundUp, hc]
    norm_num
  · have hc : Int.ceil ((10 : ℚ) ^ (2 : ℤ) * 2) = 200 := by
      rw [show ((10 : ℚ) ^ (2 : ℤ) * 2) = ((200 : ℤ) : ℚ) by norm_num, Int.ceil_intCast]
    rw [roundUp, hc]
    norm_num

/-- C3 witness: `roundUp_spec` applied at `v = 2.341`, `p = 2`. -/
theorem roundUp_spec_witness :
    (2341 / 1000 : ℚ) ≤ roundUp (2341 / 1000) 2
    ∧ roundUp (2341 / 1000) 2 = 235 / 100 ∧ roundUp 2 2 = 2 := by
  obtain ⟨_, h2, _, h4, h5⟩ := roundUp_spec (2341 / 1000) 2 (by norm_num)
  exact ⟨h2, h4, h5⟩

/-- The names of the merged list: unchanged when some declared provider
matches the new name, extended by the (then fresh) new name otherwise. -/
lemma mergeOne_names (ps : List Provider) (n : Provider) :
    (mergeOne ps n).map Provider.Name = ps.map Provider.Name
    ∨ ((mergeOne ps n).map Provider.Name = ps.map Provider.Name ++ [n.Name]
        ∧ n.Name ∉ ps.map Provider.Name) := by
  induction ps with
  | nil => right; simp [mergeOne]
  | cons p rest ih =>
    by_cases h : n.Name = p.Name
    · left; simp [mergeOne, h]
    · rcases ih with h1 | ⟨h1, h2⟩
      · left; simp [mergeOne, h, h1]
      · right
        refine ⟨by simp [mergeOne, h, h1], ?_⟩
        simp only [List.map_cons, List.mem_cons]
        rintro (hm | hm)
        · exact h hm
        · exact h2 hm

/-- The merge fold preserves name uniqueness of the declared list. -/
lemma foldl_mergeOne_nodup (ns : List Provider) (ps : List Provider)
    (h : (ps.map Provider.Name).Nodup) :
    ((ns.foldl mergeOne ps).map Provider.Name).Nodup := by
  induction ns generalizing ps with
  | nil => exact h
  | cons n rest ih =>
    apply ih
    rcases mergeOne_names ps n with h1 | ⟨h1, h2⟩
    · rw [h1]; exact h
    · rw [h1]
      simp [List.nodup_append, h, h2]

/-- C4: `UpdateSpendProviders` folds the new providers one at a time into
the declared list; for one new provider, when no declared provider bears
its name it is appended at the end, and when the first match sits between
`pre` and `suf` only that provider's `Cost` is overwritten, in place, all
other fields and the position kept; the options are untouched, and the
gcp/azure example from the spec evaluates as stated. -/
theorem updateSpendProviders_spec (c : Config) (newProv : List Provider)
    (n : Provider) (ns : List Provider) :
    UpdateSpendProviders c [] = c
    ∧ UpdateSpendProviders c (n :: ns)
        = UpdateSpendProviders { c with Providers := mergeOne c.Providers n } ns
    ∧ (UpdateSpendProviders c newProv).Opts = c.Opts
    ∧ (∀ ps : List Provider, (∀ p ∈ ps, p.Name ≠ n.Name) → mergeOne ps n = ps ++ [n])
    ∧ (∀ pre p suf, (∀ q ∈ pre, q.Name ≠ n.Name) → p.Name = n.Name →
        mergeOne (pre ++ p :: suf) n = pre ++ { p with Cost := n.Cost } :: suf)
    ∧ UpdateSpendProviders { Providers := [{ Name := "gcp", Cost := 10 }] }
        [{ Name := "gcp", Cost := 15 }, { Name := "azure", Cost := 5 }]
        = { Providers := [{ Name := "gcp", Cost := 15 }, { Name := "azure", Cost := 5 }] } := by
  refine ⟨rfl, rfl, rfl, ?_, ?_, by decide⟩
  · intro ps hps
    induction ps with
    | nil => rfl
    | cons p rest ih =>
      have hne : n.Name ≠ p.Name := fun h => hps p (by simp) h.symm
      simp only [mergeOne, if_neg hne, List.cons_append, List.cons.injEq, true_and]
      exact ih fun q hq => hps q (by simp [hq])
  · intro pre p suf hpre hp
    induction pre with
    | nil =>
      simp only [List.nil_append, mergeOne, if_pos hp.symm]
    | cons q rest ih =>
      have hne : n.Name ≠ q.Name := fun h => hpre q (by simp) h.symm
      simp only [List.cons_append, mergeOne, if_neg hne, List.cons.injEq, true_and]
      exact ih fun q' hq' => hpre q' (by simp [hq'])

/-- C4 witness: `updateSpendProviders_spec` instantiated on the gcp/azure
example, discharging both implications at concrete lists. -/
theorem updateSpendProviders_spec_witness :
    mergeOne [{ Name := "gcp", Cost := 10 }] { Name := "azure", Cost := 5 }
      = [{ Name := "gcp", Cost := 10 }, { Name := "azure", Cost := 5 }]
    ∧ mergeOne [{ Name := "gcp", Cost := 10 }] { Name := "gcp", Cost := 15 }
      = [{ Name := "gcp", Cost := 15 }]
    ∧ UpdateSpendProviders { Providers := [{ Name := "gcp", Cost := 10 }] }
        [{ Name := "gcp", Cost := 15 }, { Name := "azure", Cost := 5 }]
        = { Providers := [{ Name := "gcp", Cost := 15 }, { Name := "azure", Cost := 5 }] } := by
  obtain ⟨-, -, -, happend, -, hexample⟩ :=
    updateSpendProviders_spec {} [] { Name := "azure", Cost := 5 } []
  obtain ⟨-, -, -, -, hupdate, -⟩ :=
    updateSpendProviders_spec {} [] { Name := "gcp", Cost := 15 } []
  refine ⟨happend [{ Name := "gcp", Cost := 10 }] (by decide), ?_, hexample⟩
  have h := hupdate [] { Name := "gcp", Cost := 10 } [] (by simp) rfl
  simpa using h

/-- C7: if the declared provider list has at most one provider per name,
it still does after `UpdateSpendProviders`, for any new provider list,
repeated names included. -/
theorem updateSpendProviders_nodup (c : Config) (newProv : List Provider)
    (h : (c.Providers.map Provider.Name).Nodup) :
    (((UpdateSpendProviders c newProv).Providers).map Provider.Name).Nodup :=
  foldl_mergeOne_nodup newProv c.Providers h

/-- C7 witness: uniqueness after merging a new list that repeats a name
into a concrete unique declared list. -/
theorem updateSpendProviders_nodup_witness :
    (((UpdateSpendProviders { Providers := [{ Name := "gcp", Cost := 10 }] }
        [{ Name := "azure", Cost := 5 }, { Name := "azure", Cost := 7 }]).Providers).map
      Provider.Name).Nodup :=
  updateSpendProviders_nodup
    { Providers := [{ Name := "gcp", Cost := 10 }] }
    [{ Name := "azure", Cost := 5 }, { Name := "azure", Cost := 7 }] (by decide)

/-- C9: `GetGranularity` returns the 4-hour default (240 minutes) when the
configured duration string is empty, and on a non-empty unparsable string
returns the parse error wrapped with a message carrying the offending
duration, not the default. -/
theorem getGranularity_spec (parseDuration : String → Except GoError ℤ) (c : Config) :
    (c.Opts.Duration = "" → GetGranularity parseDuration c = .ok (4 * 60))
    ∧ (∀ e, c.Opts.Duration ≠ "" → parseDuration c.Opts.Duration = .error e →
        GetGranularity parseDuration c
          = .error (.wrap ("Could not parse duration " ++ c.Opts.Duration) e)) := by
  constructor
  · intro h
    simp [GetGranularity, h]
  · intro e h he
    simp [GetGranularity, h, he]

/-- C9 witness: `getGranularity_spec` at an always-failing parser, once
with an empty and once with a non-empty duration string. -/
theorem getGranularity_spec_witness :
    GetGranularity (fun _ => .error (.base "bad")) { Opts := { Duration := "" } } = .ok 240
    ∧ GetGranularity (fun _ => .error (.base "bad")) { Opts := { Duration := "xyz" } }
        = .error (.wrap ("Could not parse duration " ++ "xyz") (.base "bad")) :=
  ⟨(getGranularity_spec (fun _ => .error (.base "bad")) { Opts := { Duration := "" } }).1 rfl,
   (getGranularity_spec (fun _ => .error (.base "bad")) { Opts := { Duration := "xyz" } }).2
     (.base "bad") (by decide) rfl⟩

/-- C10: evaluation of `Output.Print` at a failing file write (directory
configured, marshalling and creation succeed): the returned error is the
write error itself, with no added context, while a creation failure does
get context — the `return err` statement forwards the write error raw and
leaves the wrapping line dead. -/
theorem print_write_error_raw :
    printOutput { Opts := { Directory := "out" } } none none (some (.base "disk full"))
        = some (.base "disk full")
    ∧ (GoError.base "disk full").hasContext = false
    ∧ (∀ e, printOutput { Opts := { Directory := "out" } } none (some e) none
        = some (.wrap "Problem creating file" e)) :=
  ⟨rfl, rfl, fun _ => rfl⟩

/-- C6: `getTimes` fails exactly when the start string is non-empty and
does not parse under the fixed layout; a valid non-empty start yields the
window `[parse(s), parse(s) + granularity)`; an empty start yields
`end = now` and `start = now - granularity`; and the spec example
`2023-01-01T00:00` with 4 hours resolves to exactly
`[2023-01-01T00:00, 2023-01-01T04:00)`. -/
theorem getTimes_spec (s : String) (g now : ℤ) :
    ((∃ e, getTimes s g now = .error e) ↔ (s ≠ "" ∧ timeParse s = none))
    ∧ (∀ t, s ≠ "" → timeParse s = some t →
        getTimes s g now = .ok { start := t, «end» := t + g })
    ∧ (s = "" → getTimes s g now = .ok { start := now - g, «end» := now })
    ∧ getTimes "2023-01-01T00:00" 240 now
        = .ok { start := civilToMinutes 2023 1 1 0 0, «end» := civilToMinutes 2023 1 1 4 0 }
    ∧ civilToMinutes 2023 1 1 4 0 = civilToMinutes 2023 1 1 0 0 + 240 := by
  refine ⟨?_, ?_, ?_, ?_, by decide⟩
  · constructor
    · rintro ⟨e, he⟩
      by_cases hs : s = ""
      · rw [getTimes, if_neg (by simpa using hs)] at he
        exact absurd he (by simp)
      · refine ⟨hs, ?_⟩
        rcases hp : timeParse s with _ | t
        · rfl
        · rw [getTimes, if_pos hs, hp] at he
          exact absurd he (by simp)
    · rintro ⟨hs, hp⟩
      rw [getTimes, if_pos hs, hp]
      exact ⟨_, rfl⟩
  · intro t hs hp
    rw [getTimes, if_pos hs, hp]
  · intro hs
    rw [getTimes, if_neg (by simpa using hs)]
    rw [sub_eq_add_neg]
  · have hp : timeParse "2023-01-01T00:00" = some (civilToMinutes 2023 1 1 0 0) := by
      decide
    rw [getTimes, if_pos (by decide), hp]
    have h240 : civilToMinutes 2023 1 1 0 0 + 240 = civilToMinutes 2023 1 1 4 0 := by decide
    exact congrArg
      (fun t => Except.ok (timeRange.mk (civilToMinutes 2023 1 1 0 0) t)) h240

/-- C6 witness: `getTimes_spec` discharged at concrete inputs — the empty
start string with a 4-hour granularity at clock 1000, and the parsed
start of the spec example. -/
theorem getTimes_spec_witness :
    getTimes "" 240 1000 = .ok { start := 1000 - 240, «end» := 1000 }
    ∧ getTimes "2023-01-01T00:00" 240 0
        = .ok { start := civilToMinutes 2023 1 1 0 0,
                «end» := civilToMinutes 2023 1 1 0 0 + 240 } :=
  ⟨(getTimes_spec "" 240 1000).2.2.1 rfl,
   (getTimes_spec "2023-01-01T00:00" 240 0).2.1 (civilToMinutes 2023 1 1 0 0)
     (by decide) (by decide)⟩

/-- C5: on every successful run, the providers of the produced `Output`
are exactly the computed aws provider first (cost at its zero value,
accounts assembled from the collaborator data), followed by the config's
declared providers unchanged and in their original order — `CreateReport`
composes fresh, it never merges into or modifies the declared list. -/
theorem createReport_providers (start : String) (g now : ℤ)
    (client : timeRange → Except GoError FetchResult) (config : Config) (out : Output)
    (h : CreateReport start g now client config = .ok out) :
    ∃ r accounts,
      getTimes start g now = .ok r
      ∧ client r = .ok accounts
      ∧ out.Providers
          = { Name := "aws", Cost := 0, Accounts := buildAccounts accounts }
            :: config.Providers := by
  cases ht : getTimes start g now with
  | error e =>
    simp only [CreateReport, ht] at h
    exact absurd h (by simp)
  | ok r =>
    cases hc : client r with
    | error e =>
      simp only [CreateReport, getAllProviders, getAWSProvider, getAWSAccounts, ht, hc] at h
      exact absurd h (by simp)
    | ok accounts =>
      simp only [CreateReport, getAllProviders, getAWSProvider, getAWSAccounts, ht, hc] at h
      refine ⟨r, accounts, rfl, hc, ?_⟩
      have h2 : out
          = { Providers :=
                { Name := "aws", Cost := 0, Accounts := buildAccounts accounts }
                  :: config.Providers,
              Report := { Begin := timeToString r.start, End := timeToString r.«end»,
                          Generated := timeToString now } } :=
        (Except.ok.inj h).symm
      rw [h2]

/-- A stubbed billing collaborator answering with no accounts. -/
def stubClientEmpty : timeRange → Except GoError FetchResult :=
  fun _ => Except.ok []

/-- C5 witness: a concrete successful run (empty start string, the
stubbed collaborator), via `createReport_providers`. -/
theorem createReport_providers_witness :
    ∃ r accounts,
      getTimes "" 240 1000 = .ok r
      ∧ stubClientEmpty r = .ok accounts
      ∧ (Output.mk
            [{ Name := "aws", Cost := 0, Accounts := [] }]
            { Begin := timeToString 760, End := timeToString 1000,
              Generated := timeToString 1000 }).Providers
          = { Name := "aws", Cost := 0, Accounts := buildAccounts accounts }
            :: ({} : Config).Providers :=
  createReport_providers "" 240 1000 stubClientEmpty {}
    (Output.mk
      [{ Name := "aws", Cost := 0, Accounts := [] }]
      { Begin := timeToString 760, End := timeToString 1000,
        Generated := timeToString 1000 }) rfl

/-- Two owners with one classified record each, in one iteration order. -/
def exFetch1 : FetchResult :=
  [("alice", [({ Name := "m1", ItemType := "t1" }, [{ Launched := true, Count := 2 }])]),
   ("bob", [({ Name := "m2", ItemType := "t2" }, [{ Launched := true, Count := 5 }])])]

/-- The same two owners with the same records, iterated the other way
round — the same finite map, as Go map iteration may deliver it. -/
def exFetch2 : FetchResult :=
  [("bob", [({ Name := "m2", ItemType := "t2" }, [{ Launched := true, Count := 5 }])]),
   ("alice", [({ Name := "m1", ItemType := "t1" }, [{ Launched := true, Count := 2 }])])]

/-- C8 counterexample: identical raw usage records (the two collaborator
answers are permutations of one another, i.e. equal as owner-keyed maps)
with a frozen clock do not give byte-identical serialized reports: the
account order follows the iteration order of the Go map returned by the
collaborator, which `getAWSAccounts` ranges over. -/
theorem report_bytes_order_dependent :
    exFetch1.Perm exFetch2
    ∧ reportBytes "" 240 0 (fun _ => Except.ok exFetch1) {}
        ≠ reportBytes "" 240 0 (fun _ => Except.ok exFetch2) {} := by
  constructor
  · exact List.Perm.swap _ _ _
  · decide

/-- C8 amended: report generation is deterministic once the iteration
order is part of the input — two runs over the same ordered record
sequence with the same frozen clock produce byte-identical serialized
output. -/
theorem report_bytes_deterministic (start : String) (g now now2 : ℤ)
    (f1 f2 : FetchResult) (config : Config)
    (h1 : f1 = f2) (h2 : now = now2) :
    reportBytes start g now (fun _ => Except.ok f1) config
      = reportBytes start g now2 (fun _ => Except.ok f2) config := by
  subst h1
  subst h2
  rfl

/-- C8 witness: `report_bytes_deterministic` at a concrete input. -/
theorem report_bytes_deterministic_witness :
    reportBytes "" 240 0 (fun _ => Except.ok exFetch1) {}
      = reportBytes "" 240 0 (fun _ => Except.ok exFetch1) {} :=
  report_bytes_deterministic "" 240 0 0 exFetch1 exFetch1 {} rfl rfl

end Cost
